import Mathlib

/-!
Verification of the B-plus rendering engine core against its specification.

The development shallowly embeds the GPU texture-resource layer
(src/Engine/Renderer/Textures/Texture.cpp) and the application shell
(src/Engine/App.cpp, src/Engine/App.h).  Driver calls (the OpenGL ARB
bindless-handle functions, mipmap generation, SDL teardown) are modelled as
emitted events; machine integers are modelled as Nat, GL object names as Nat
identifiers, and std::optional as Option.  BPAssert is modelled as an
`asserted` flag: once a contract assertion fires, execution aborts, so no
further effects are recorded.

Class definitions (fields, the std::map members, the Sampler type) live in
headers that are not part of the sources at hand; where a definition depends
on them it is marked `Modelled from the spec:` in its doc comment.
-/

namespace BPlus

/-! ## Bindless handle activation counting

Embeds TexHandle::Activate / ImgHandle::Activate (Texture.cpp lines 82 to 93)
and TexHandle::Deactivate / ImgHandle::Deactivate (lines 95 to 112).  The two
handle kinds have identical activation logic; only the names of the driver
residency functions differ (glMakeTextureHandle[Non]ResidentARB versus
glMakeImageHandle[Non]ResidentARB), so one model covers both.
-/

/-- Driver residency calls issued by a handle
(glMake...HandleResidentARB / glMake...HandleNonResidentARB). -/
inductive ResidencyCall where
  | makeResident
  | makeNonResident
deriving DecidableEq, Repr

/-- State of one handle: its activation counter, whether the BPAssert in
Deactivate has fired, and the residency calls issued so far (in order). -/
structure HandleState where
  activeCount : Nat
  asserted : Bool
  calls : List ResidencyCall
deriving DecidableEq, Repr

/-- A freshly created handle: activation count 0, no driver calls issued. -/
def HandleState.init : HandleState := ⟨0, false, []⟩

/-- Embeds TexHandle::Activate and ImgHandle::Activate (Texture.cpp:82-93):
increment the counter, and on the 0-to-1 transition make the handle resident. -/
def Handle.Activate (s : HandleState) : HandleState :=
  { activeCount := s.activeCount + 1
    asserted := s.asserted
    calls := s.calls ++ if s.activeCount + 1 = 1 then [.makeResident] else [] }

/-- Embeds TexHandle::Deactivate and ImgHandle::Deactivate (Texture.cpp:95-112):
BPAssert(activeCount > 0); decrement; on reaching 0 make non-resident.
A failed assertion aborts before the decrement happens. -/
def Handle.Deactivate (s : HandleState) : HandleState :=
  if s.activeCount = 0 then { s with asserted := true }
  else
    { activeCount := s.activeCount - 1
      asserted := s.asserted
      calls := s.calls ++ if s.activeCount - 1 = 0 then [.makeNonResident] else [] }

/-- One call made by client code on a handle. -/
inductive HandleOp where
  | act
  | deact
deriving DecidableEq, Repr

/-- Execute one client call; after an assertion failure the program has
aborted, so later calls have no effect. -/
def stepOp (s : HandleState) (op : HandleOp) : HandleState :=
  if s.asserted then s
  else
    match op with
    | .act => Handle.Activate s
    | .deact => Handle.Deactivate s

/-- Run a sequence of Activate/Deactivate calls from a given state. -/
def runFrom : HandleState → List HandleOp → HandleState
  | s, [] => s
  | s, op :: rest => runFrom (stepOp s op) rest

/-- Run a sequence of Activate/Deactivate calls on a fresh handle. -/
def runOps (ops : List HandleOp) : HandleState :=
  runFrom HandleState.init ops

/-- Number of Activate calls in a sequence. -/
def countA : List HandleOp → Nat
  | [] => 0
  | .act :: rest => countA rest + 1
  | .deact :: rest => countA rest

/-- Number of Deactivate calls in a sequence. -/
def countD : List HandleOp → Nat
  | [] => 0
  | .act :: rest => countD rest
  | .deact :: rest => countD rest + 1

/-! ## The per-texture handle caches

Embeds Texture::GetViewFull(std::optional<Sampler<3>>) (Texture.cpp:208-219)
and the image-view cache the spec prescribes for
Texture::GetViewFull(ImageAccessModes, std::optional, uint_mipLevel_t)
(Texture.cpp:220-230).  The std::map members texHandles / imgHandles are
modelled as association lists with structural key equality.
-/

/-- Modelled from the spec: the Sampler<3> value type (filtering, wrap modes,
border behavior).  Its definition lives in a header that is not among the
sources; the spec states it is a value type acting as a map key with
structural equality, which the derived DecidableEq provides. -/
structure Sampler3 where
  minFilter : Nat
  magFilter : Nat
  wrapU : Nat
  wrapV : Nat
  wrapW : Nat
  border : Nat
deriving DecidableEq, Repr

/-- A cached TexHandle: the bindless view identifier minted by the driver, the
optional GL sampler object owned by the handle, and the activation counter. -/
structure TexHandleRec where
  viewGlPtr : Nat
  samplerGlPtr : Option Nat
  activeCount : Nat
deriving DecidableEq, Repr

/-- Lookup in an association list by structural key equality
(models std::map::find). -/
def assocLookup {κ ν : Type} [DecidableEq κ] : List (κ × ν) → κ → Option ν
  | [], _ => none
  | (k0, v) :: rest, k => if k = k0 then some v else assocLookup rest k

/-- Update the value stored at a key, when present
(models mutation through a std::map reference). -/
def assocUpdate {κ ν : Type} [DecidableEq κ] :
    List (κ × ν) → κ → (ν → ν) → List (κ × ν)
  | [], _, _ => []
  | (k0, v) :: rest, k, f =>
      if k0 = k then (k0, f v) :: rest else (k0, v) :: assocUpdate rest k f

/-- The parts of a Texture that the sampler-keyed handle cache touches:
the default sampler, the cache itself, an instrumented count of driver
handle-minting calls (glGetTextureHandleARB / glGetTextureSamplerHandleARB),
and a supply of fresh GL object names. -/
structure TextureRec where
  sampler3D : Sampler3
  texHandles : List (Sampler3 × TexHandleRec)
  mintedTexHandles : Nat
  nextGlPtr : Nat

/-- A freshly constructed Texture (Texture.cpp:170-185): no handles exist yet. -/
def Texture.init (s3d : Sampler3) : TextureRec :=
  { sampler3D := s3d, texHandles := [], mintedTexHandles := 0, nextGlPtr := 0 }

/-- Embeds Texture::GetViewFull(std::optional<Sampler<3>>) (Texture.cpp:208-219):
resolve the sampler (explicit override or the default), look the resolved
sampler up in texHandles, lazily construct the TexHandle on a miss
(TexHandle(this, sampler) also creates a GL sampler object; TexHandle(this)
does not), then build a TexView on the cached handle, which activates it.
The AssertFormatIsAllowed check made by TexHandle(this, sampler) is not
modelled here (the claims settled against this definition do not involve it). -/
def Texture.GetViewFull (t : TextureRec) (customSampler : Option Sampler3) :
    TextureRec :=
  let sampler := customSampler.getD t.sampler3D
  match assocLookup t.texHandles sampler with
  | some _ =>
      { t with
          texHandles := assocUpdate t.texHandles sampler
            (fun h => { h with activeCount := h.activeCount + 1 }) }
  | none =>
      let newHandle : TexHandleRec :=
        match customSampler with
        | some _ =>
            { viewGlPtr := t.nextGlPtr + 1
              samplerGlPtr := some t.nextGlPtr
              activeCount := 0 }
        | none =>
            { viewGlPtr := t.nextGlPtr
              samplerGlPtr := none
              activeCount := 0 }
      { t with
          texHandles := assocUpdate ((sampler, newHandle) :: t.texHandles) sampler
            (fun h => { h with activeCount := h.activeCount + 1 })
          mintedTexHandles := t.mintedTexHandles + 1
          nextGlPtr := t.nextGlPtr + 2 }

/-- Run a sequence of GetViewFull calls, each with an optional custom sampler. -/
def runGetViews : TextureRec → List (Option Sampler3) → TextureRec
  | t, [] => t
  | t, c :: rest => runGetViews (Texture.GetViewFull t c) rest

/-- Image access modes (read, write, read-write), as in the BETTER_ENUM used
by the source. -/
inductive ImageAccessModes where
  | ReadOnly
  | WriteOnly
  | ReadWrite
deriving DecidableEq, Repr

/-- The key of the image-handle cache: the triple built at Texture.cpp:224,
ImgHandleData{ mipLevel, singleLayer, access }. -/
structure ImgHandleData where
  MipLevel : Nat
  SingleLayer : Option Nat
  Access : ImageAccessModes
deriving DecidableEq, Repr

/-- A cached ImgHandle: the bindless image identifier and its activation
counter. -/
structure ImgHandleRec where
  viewGlPtr : Nat
  activeCount : Nat
deriving DecidableEq, Repr

/-- The parts of a Texture the image-handle cache touches: the cache, an
instrumented count of glGetImageHandleARB calls, and fresh GL names. -/
structure ImgCacheRec where
  imgHandles : List (ImgHandleData × ImgHandleRec)
  mintedImgHandles : Nat
  nextGlPtr : Nat

/-- A freshly constructed Texture has an empty image-handle cache. -/
def ImgCache.init : ImgCacheRec :=
  { imgHandles := [], mintedImgHandles := 0, nextGlPtr := 0 }

/-- Modelled from the spec: the image-view overload
Texture::GetViewFull(ImageAccessModes, std::optional, uint_mipLevel_t).
The source at Texture.cpp:220-230 does not compile: it looks the cache up
with an undeclared variable named sampler, inserts into the sampler-keyed
texHandles map instead of imgHandles, and has an unbalanced parenthesis.
The spec directs that the image-handle cache be keyed consistently by the
triple (mip level, optional layer, access mode) in imgHandles, with the same
lazy-creation pattern as the sampler overload; this definition follows those
words. -/
def Texture.GetViewImg (t : ImgCacheRec) (access : ImageAccessModes)
    (singleLayer : Option Nat) (mipLevel : Nat) : ImgCacheRec :=
  let data : ImgHandleData :=
    { MipLevel := mipLevel, SingleLayer := singleLayer, Access := access }
  match assocLookup t.imgHandles data with
  | some _ =>
      { t with
          imgHandles := assocUpdate t.imgHandles data
            (fun h => { h with activeCount := h.activeCount + 1 }) }
  | none =>
      let newHandle : ImgHandleRec := { viewGlPtr := t.nextGlPtr, activeCount := 0 }
      { t with
          imgHandles := assocUpdate ((data, newHandle) :: t.imgHandles) data
            (fun h => { h with activeCount := h.activeCount + 1 })
          mintedImgHandles := t.mintedImgHandles + 1
          nextGlPtr := t.nextGlPtr + 1 }

/-- Run a sequence of image-view requests, each a triple
(access mode, optional layer, mip level). -/
def runGetImgViews : ImgCacheRec → List (ImageAccessModes × Option Nat × Nat) → ImgCacheRec
  | t, [] => t
  | t, c :: rest => runGetImgViews (Texture.GetViewImg t c.1 c.2.1 c.2.2) rest

/-- Key of one image-view request triple. -/
def imgKeyOf (c : ImageAccessModes × Option Nat × Nat) : ImgHandleData :=
  { MipLevel := c.2.2, SingleLayer := c.2.1, Access := c.1 }

/-! ## RecomputeMips -/

/-- Modelled from the spec: a pixel format, carrying whether it is
block-compressed and its GL enumerant.  The Format class is defined outside
the sources at hand; the claims only consult Format::IsCompressed and
Format::GetOglEnum. -/
structure Format where
  isCompressed : Bool
  oglEnum : Nat
deriving DecidableEq, Repr

/-- Driver call recorded by RecomputeMips. -/
inductive GlCall where
  | generateTextureMipmap
deriving DecidableEq, Repr

/-- Embeds Texture::RecomputeMips (Texture.cpp:200-206):
BPAssert(!format.IsCompressed(), ...), then glGenerateTextureMipmap.
Returned pair: whether the assertion fired (aborting before any driver call),
and the driver calls issued. -/
def Texture.RecomputeMips (format : Format) : Bool × List GlCall :=
  if format.isCompressed then (true, [])
  else (false, [.generateTextureMipmap])

/-! ## Texture2D construction and mip-count resolution -/

/-- The stored fields of a constructed 2D texture relevant to mip counting. -/
structure Texture2DRec where
  size : Nat × Nat
  format : Format
  nMipLevels : Nat
deriving DecidableEq, Repr

/-- Modelled from the spec: the Texture2D constructor (in a header not among
the sources) resolves a requested mip-level count of 0 (auto) to the maximum
possible mip chain for the dimensions, floor(log2(largest dimension)) + 1,
before handing the count to the base constructor Texture::Texture
(Texture.cpp:170-185), which stores it unchanged in nMipLevels. -/
def Texture2D.mk (size : Nat × Nat) (format : Format) (nMips : Nat) :
    Texture2DRec :=
  { size := size
    format := format
    nMipLevels := if nMips = 0 then Nat.log2 (max size.1 size.2) + 1 else nMips }

/-! ## View copy assignment

Embeds TexView::operator= (Texture.cpp:127-140) and ImgView::operator=
(Texture.cpp:151-164); the two bodies are identical up to the view type, so
one model covers both.  The TexView/ImgView copy constructor invoked by the
placement new lives in a header not among the sources; per the spec, view
construction binds to the handle of the source view and activates it.
-/

/-- A view: the identity of the handle it borrows (the address &Handle in the
source) and its GlPtr field (copied from the handle at construction). -/
structure ViewRec where
  handleId : Nat
  glPtr : Nat
deriving DecidableEq, Repr

/-- Driver residency calls tagged with the handle they concern. -/
inductive ViewEvent where
  | makeResident (handle : Nat)
  | makeNonResident (handle : Nat)
deriving DecidableEq, Repr

/-- Result of running operator=: the resulting view, the activation count of
every handle (by identity), the residency calls issued, and whether a
BPAssert fired. -/
structure AssignResult where
  view : ViewRec
  counts : Nat → Nat
  events : List ViewEvent
  asserted : Bool

/-- Pointwise update of a Nat-indexed family. -/
def updFn (f : Nat → Nat) (i v : Nat) : Nat → Nat :=
  fun j => if j = i then v else f j

/-- Embeds TexView::operator= / ImgView::operator= (Texture.cpp:127-164).
With a different handle: destroy the current view (Handle.Deactivate: assert
the count positive, decrement, revoke residency on reaching 0), then
placement-new copy-construct from the source view (bind to its handle and
Activate it: increment, grant residency on the 0-to-1 transition).
With the same handle: only BPAssert(GlPtr == cpy.GlPtr). -/
def View.assign (counts : Nat → Nat) (dst src : ViewRec) : AssignResult :=
  if dst.handleId = src.handleId then
    { view := dst
      counts := counts
      events := []
      asserted := if dst.glPtr = src.glPtr then false else true }
  else
    if counts dst.handleId = 0 then
      { view := dst, counts := counts, events := [], asserted := true }
    else
      let cDst := counts dst.handleId - 1
      let counts1 := updFn counts dst.handleId cDst
      let ev1 : List ViewEvent :=
        if cDst = 0 then [.makeNonResident dst.handleId] else []
      let cSrc := counts1 src.handleId + 1
      let counts2 := updFn counts1 src.handleId cSrc
      let ev2 : List ViewEvent :=
        if cSrc = 1 then [.makeResident src.handleId] else []
      { view := src, counts := counts2, events := ev1 ++ ev2, asserted := false }

/-! ## Handle move construction and destruction -/

/-- The fields of a TexHandle object (Texture.cpp): the bindless view
identifier, the optional owned GL sampler object, the activation counter, and
the skipDestructor flag set on moved-from objects. -/
structure TexHandleObj where
  viewGlPtr : Nat
  samplerGlPtr : Option Nat
  activeCount : Nat
  skipDestructor : Bool
deriving DecidableEq, Repr

/-- The fields of an ImgHandle object (Texture.cpp). -/
structure ImgHandleObj where
  viewGlPtr : Nat
  mipLevel : Nat
  singleLayer : Option Nat
  access : ImageAccessModes
  activeCount : Nat
  skipDestructor : Bool
deriving DecidableEq, Repr

/-- Embeds TexHandle::TexHandle(TexHandle&&) (Texture.cpp:68-73): the new
object copies every field of the source, then the source is marked with
skipDestructor.  Returns (new object, moved-from object). -/
def TexHandleObj.moveCtor (src : TexHandleObj) : TexHandleObj × TexHandleObj :=
  (src, { src with skipDestructor := true })

/-- Embeds ImgHandle::ImgHandle(ImgHandle&&) (Texture.cpp:74-80). -/
def ImgHandleObj.moveCtor (src : ImgHandleObj) : ImgHandleObj × ImgHandleObj :=
  (src, { src with skipDestructor := true })

/-- Driver calls a handle destructor can issue. -/
inductive DtorEvent where
  | makeNonResident
  | deleteSampler
deriving DecidableEq, Repr

/-- The forced-deactivation loop of the destructors (while activeCount > 0
Deactivate()): each Deactivate decrements and emits the revocation call only
when the count reaches 0, so a count of n emits exactly one revocation at the
end. -/
def deactivateLoop : Nat → List DtorEvent
  | 0 => []
  | n + 1 => (if n = 0 then [.makeNonResident] else []) ++ deactivateLoop n

/-- Embeds TexHandle::~TexHandle (Texture.cpp:43-56): skip everything when
skipDestructor is set; otherwise force deactivation, then delete the sampler
object when one is owned. -/
def TexHandleObj.dtor (h : TexHandleObj) : List DtorEvent :=
  if h.skipDestructor then []
  else
    deactivateLoop h.activeCount ++
      (if h.samplerGlPtr.isSome then [.deleteSampler] else [])

/-- Embeds ImgHandle::~ImgHandle (Texture.cpp:57-66). -/
def ImgHandleObj.dtor (h : ImgHandleObj) : List DtorEvent :=
  if h.skipDestructor then [] else deactivateLoop h.activeCount

/-! ## App shell: quitting -/

/-- The fields of App (App.h) that App::OnQuit touches, with the teardown
effects recorded as state: the SDL window and GL context (none after
destruction), whether SDL is still initialized, whether the config file has
been written, and the private isRunning flag. -/
structure AppState where
  mainWindow : Option Nat
  openGLContext : Option Nat
  sdlInitialized : Bool
  configWritten : Bool
  isRunning : Bool
deriving DecidableEq, Repr

/-- Embeds App::OnQuit (App.cpp:277-295): delete the GL context and null it,
destroy the window and null it, SDL_Quit when SDL was initialized, write the
config file, and finally assign isRunning = true (App.cpp:294, exactly as
written in the source). -/
def App.OnQuit (s : AppState) (force : Bool) : AppState :=
  { s with
      openGLContext := none
      mainWindow := none
      sdlInitialized := false
      configWritten := true
      isRunning := true }

/-- Embeds App::DidQuit (App.h:106): returns !isRunning. -/
def App.DidQuit (s : AppState) : Bool :=
  !s.isRunning

/-- Embeds App::Quit (App.h:104): calls OnQuit only while running. -/
def App.Quit (s : AppState) (force : Bool) : AppState :=
  if s.isRunning then App.OnQuit s force else s

/-! ## The physics catch-up loop

Embeds the physics update of App::Run (App.cpp:255-261):

  timeSinceLastPhysicsUpdate += deltaT;
  while (timeSinceLastPhysicsUpdate > PhysicsTimeStep)
  { timeSinceLastPhysicsUpdate -= PhysicsTimeStep; OnPhysics(PhysicsTimeStep); }

The accumulator and time step are modelled as exact rationals.  The loop is
given as a function returning the final accumulator value and the number of
OnPhysics calls; the guard 0 < step (true of the default PhysicsTimeStep
1/50 used below) is required for termination of the source loop as well.
-/

/-- Default physics time step (App.h:77): 1/50 of a second. -/
def PhysicsTimeStep : ℚ := 1 / 50

/-- Declared limit on physics steps per frame (App.h:83); App::Run never
reads it. -/
def MaxPhysicsStepsPerFrame : Nat := 10

/-- One frame of the physics catch-up loop: from accumulated time t, subtract
the step and call OnPhysics while the accumulator exceeds the step.  Returns
(final accumulator, number of OnPhysics calls this frame). -/
def physicsLoop (step t : ℚ) : ℚ × Nat :=
  if h : 0 < step ∧ step < t then
    ((physicsLoop step (t - step)).1, (physicsLoop step (t - step)).2 + 1)
  else (t, 0)
termination_by (⌈t / step⌉).toNat
decreasing_by
  obtain ⟨h1, h2⟩ := h
  have hq : (1 : ℚ) < t / step := (one_lt_div h1).mpr h2
  have hc : (1 : ℤ) < ⌈t / step⌉ := Int.lt_ceil.mpr (by exact_mod_cast hq)
  have hsub : ⌈(t - step) / step⌉ = ⌈t / step⌉ - 1 := by
    rw [sub_div, div_self (ne_of_gt h1), Int.ceil_sub_one]
  simp only [hsub]
  omega

/-! ## Theorems -/

/-- Claim C9: after the base-class App::OnQuit(force) implementation returns,
on any quit path, the private isRunning flag is true, so a subsequent
DidQuit() returns false, even though the GL context, the window and SDL have
been torn down and the config file has been written. -/
theorem App.onQuit_leaves_isRunning_true (s : AppState) (force : Bool) :
    (App.OnQuit s force).isRunning = true ∧
    App.DidQuit (App.OnQuit s force) = false ∧
    (App.OnQuit s force).openGLContext = none ∧
    (App.OnQuit s force).mainWindow = none ∧
    (App.OnQuit s force).sdlInitialized = false ∧
    (App.OnQuit s force).configWritten = true := by
  simp [App.OnQuit, App.DidQuit]

/-- Claim C7: move construction copies the driver handle identifiers and the
activation count into the new object and marks the moved-from object inert,
so destroying the moved-from object performs no deactivation, issues no
residency revocation and deletes no sampler object, regardless of the
activation count at the time of the move; this holds for TexHandle and
ImgHandle alike. -/
theorem handle_move_transfers_and_inerts (t : TexHandleObj) (g : ImgHandleObj) :
    (t.moveCtor.1.viewGlPtr = t.viewGlPtr ∧
     t.moveCtor.1.samplerGlPtr = t.samplerGlPtr ∧
     t.moveCtor.1.activeCount = t.activeCount ∧
     t.moveCtor.2.skipDestructor = true ∧
     t.moveCtor.2.dtor = []) ∧
    (g.moveCtor.1.viewGlPtr = g.viewGlPtr ∧
     g.moveCtor.1.activeCount = g.activeCount ∧
     g.moveCtor.2.skipDestructor = true ∧
     g.moveCtor.2.dtor = []) := by
  simp [TexHandleObj.moveCtor, ImgHandleObj.moveCtor,
        TexHandleObj.dtor, ImgHandleObj.dtor]

/-- Claim C4: RecomputeMips on a block-compressed format fails the contract
assertion before any mip generation, and on a non-compressed format does not
assert and issues the driver mip-generation call; it never silently returns
having done neither. -/
theorem recomputeMips_asserts_iff_compressed (f : Format) :
    (f.isCompressed = true → Texture.RecomputeMips f = (true, [])) ∧
    (f.isCompressed = false →
      Texture.RecomputeMips f = (false, [GlCall.generateTextureMipmap])) := by
  constructor <;> intro h <;> simp [Texture.RecomputeMips, h]

/-- Witness for claim C4 at a concrete compressed and a concrete
non-compressed format. -/
theorem recomputeMips_asserts_iff_compressed_witness :
    Texture.RecomputeMips ⟨true, 0⟩ = (true, []) ∧
    Texture.RecomputeMips ⟨false, 0⟩ = (false, [GlCall.generateTextureMipmap]) :=
  ⟨(recomputeMips_asserts_iff_compressed ⟨true, 0⟩).1 rfl,
   (recomputeMips_asserts_iff_compressed ⟨false, 0⟩).2 rfl⟩

/-- Claim C5: a Texture constructed with a requested mip-level count of 0
stores the maximum possible mip chain for its dimensions,
floor(log2(largest dimension)) + 1; in particular a 256 by 256 texture
resolves to mip count 9. -/
theorem texture2D_auto_mip_count (size : Nat × Nat) (f : Format) :
    (Texture2D.mk size f 0).nMipLevels = Nat.log2 (max size.1 size.2) + 1 ∧
    (Texture2D.mk (256, 256) f 0).nMipLevels = 9 := by
  constructor
  · simp [Texture2D.mk]
  · simp [Texture2D.mk, Nat.log2]

/-! ### Activation counting: helper lemmas -/

/-- After an assertion failure the program has aborted: running further calls
changes nothing. -/
theorem runFrom_asserted_absorb (ops : List HandleOp) :
    ∀ s : HandleState, s.asserted = true → runFrom s ops = s := by
  induction ops with
  | nil => intro s _; rfl
  | cons op rest ih =>
      intro s hs
      show runFrom (stepOp s op) rest = s
      rw [show stepOp s op = s by simp [stepOp, hs]]
      exact ih s hs

/-- Running a sequence split in two runs the two parts in order. -/
theorem runFrom_append (l1 l2 : List HandleOp) :
    ∀ s, runFrom s (l1 ++ l2) = runFrom (runFrom s l1) l2 := by
  induction l1 with
  | nil => intro s; rfl
  | cons op rest ih =>
      intro s
      show runFrom (stepOp s op) (rest ++ l2) = _
      exact ih (stepOp s op)

/-- Activations on a handle whose count is already positive issue no
residency call. -/
theorem runFrom_replicate_act (n : Nat) :
    ∀ (c : Nat) (calls : List ResidencyCall),
      runFrom ⟨c + 1, false, calls⟩ (List.replicate n .act) =
        ⟨c + 1 + n, false, calls⟩ := by
  induction n with
  | zero => intro c calls; rfl
  | succ m ih =>
      intro c calls
      rw [List.replicate_succ]
      show runFrom (stepOp ⟨c + 1, false, calls⟩ .act) (List.replicate m .act) = _
      rw [show stepOp ⟨c + 1, false, calls⟩ .act = ⟨c + 1 + 1, false, calls⟩ by
            simp [stepOp, Handle.Activate]]
      rw [ih (c + 1) calls]
      rw [show c + 1 + 1 + m = c + 1 + (m + 1) by omega]

/-- Deactivating a handle from count n + 1 exactly n + 1 times issues exactly
one revocation call, at the final transition to 0. -/
theorem runFrom_replicate_deact (n : Nat) :
    ∀ calls : List ResidencyCall,
      runFrom ⟨n + 1, false, calls⟩ (List.replicate (n + 1) .deact) =
        ⟨0, false, calls ++ [.makeNonResident]⟩ := by
  induction n with
  | zero =>
      intro calls
      rw [List.replicate_succ]
      show runFrom (stepOp ⟨1, false, calls⟩ .deact) (List.replicate 0 .deact) = _
      rw [show stepOp ⟨1, false, calls⟩ .deact =
            ⟨0, false, calls ++ [.makeNonResident]⟩ by
            simp [stepOp, Handle.Deactivate]]
      rfl
  | succ m ih =>
      intro calls
      rw [List.replicate_succ]
      show runFrom (stepOp ⟨m + 1 + 1, false, calls⟩ .deact)
            (List.replicate (m + 1) .deact) = _
      rw [show stepOp ⟨m + 1 + 1, false, calls⟩ .deact = ⟨m + 1, false, calls⟩ by
            simp [stepOp, Handle.Deactivate]]
      exact ih calls

/-- Claim C3 is false as stated: the interleaving Activate, Deactivate,
Activate, Deactivate (N = 2 activations and 2 matching deactivations, the
count never going negative and no assertion firing) issues the make-resident
driver call twice and the make-non-resident call twice, not exactly once
each. -/
theorem activation_interleaving_two_residency_calls :
    (runOps [.act, .deact, .act, .deact]).asserted = false ∧
    (runOps [.act, .deact, .act, .deact]).calls =
      [ResidencyCall.makeResident, ResidencyCall.makeNonResident,
       ResidencyCall.makeResident, ResidencyCall.makeNonResident] ∧
    (runOps [.act, .deact, .act, .deact]).calls.count ResidencyCall.makeResident = 2 := by
  decide

/-- Claim C3 (amended): the handle issues the make-resident call at every
0-to-1 transition and the make-non-resident call at every transition back to
0; in particular, for every N at least 1, N Activate calls followed by N
matching Deactivate calls issue exactly one make-resident call (at the 0-to-1
transition) and exactly one make-non-resident call (at the final transition
back to 0), and no other call issues a residency call. -/
theorem activation_balanced_stack (n : Nat) (h : 1 ≤ n) :
    runOps (List.replicate n .act ++ List.replicate n .deact) =
      ⟨0, false, [ResidencyCall.makeResident, ResidencyCall.makeNonResident]⟩ := by
  obtain ⟨m, rfl⟩ : ∃ m, n = m + 1 := ⟨n - 1, by omega⟩
  rw [runOps, runFrom_append]
  have h1 : runFrom HandleState.init (List.replicate (m + 1) .act) =
      ⟨m + 1, false, [ResidencyCall.makeResident]⟩ := by
    rw [List.replicate_succ]
    show runFrom (stepOp HandleState.init .act) (List.replicate m .act) = _
    rw [show stepOp HandleState.init .act = ⟨1, false, [ResidencyCall.makeResident]⟩ by
          simp [stepOp, HandleState.init, Handle.Activate]]
    have h2 := runFrom_replicate_act m 0 [ResidencyCall.makeResident]
    rw [show (0 : Nat) + 1 + m = m + 1 by omega] at h2
    exact h2
  rw [h1]
  exact runFrom_replicate_deact m [ResidencyCall.makeResident]

/-- Witness for claim C3 (amended) at N = 2. -/
theorem activation_balanced_stack_witness :
    1 ≤ 2 ∧
    runOps (List.replicate 2 .act ++ List.replicate 2 .deact) =
      ⟨0, false, [ResidencyCall.makeResident, ResidencyCall.makeNonResident]⟩ :=
  ⟨by decide, activation_balanced_stack 2 (by decide)⟩

/-- Deactivation assertion characterization: the BPAssert in Deactivate fires
on a call sequence exactly when some prefix of it contains more Deactivate
calls than Activate calls. -/
theorem runFrom_asserted_iff (ops : List HandleOp) :
    ∀ s : HandleState, s.asserted = false →
      ((runFrom s ops).asserted = true ↔
        ∃ k, s.activeCount + countA (List.take k ops) < countD (List.take k ops)) := by
  induction ops with
  | nil =>
      intro s hs
      simp [runFrom, hs, countA, countD]
  | cons op rest ih =>
      intro s hs
      cases op with
      | act =>
          show ((runFrom (stepOp s .act) rest).asserted = true ↔ _)
          rw [show stepOp s .act = Handle.Activate s by simp [stepOp, hs]]
          rw [ih (Handle.Activate s) (by simp [Handle.Activate, hs])]
          have hcount : (Handle.Activate s).activeCount = s.activeCount + 1 := rfl
          rw [hcount]
          constructor
          · rintro ⟨k, hk⟩
            refine ⟨k + 1, ?_⟩
            simp only [List.take_succ_cons, countA, countD]
            omega
          · rintro ⟨k, hk⟩
            cases k with
            | zero => simp [countA, countD] at hk
            | succ j =>
                refine ⟨j, ?_⟩
                simp only [List.take_succ_cons, countA, countD] at hk
                omega
      | deact =>
          cases hc : s.activeCount with
          | zero =>
              show ((runFrom (stepOp s .deact) rest).asserted = true ↔ _)
              rw [show stepOp s .deact = { s with asserted := true } by
                    simp [stepOp, hs, Handle.Deactivate, hc]]
              rw [runFrom_asserted_absorb rest _ rfl]
              constructor
              · intro _
                exact ⟨1, by simp [countA, countD, hc]⟩
              · intro _
                rfl
          | succ c =>
              show ((runFrom (stepOp s .deact) rest).asserted = true ↔ _)
              rw [show stepOp s .deact =
                    ⟨c, false, s.calls ++ if c = 0 then [.makeNonResident] else []⟩ by
                    simp [stepOp, hs, Handle.Deactivate, hc]]
              rw [ih _ rfl]
              dsimp only
              constructor
              · rintro ⟨k, hk⟩
                refine ⟨k + 1, ?_⟩
                simp only [List.take_succ_cons, countA, countD]
                omega
              · rintro ⟨k, hk⟩
                cases k with
                | zero => simp [countA, countD] at hk
                | succ j =>
                    refine ⟨j, ?_⟩
                    simp only [List.take_succ_cons, countA, countD] at hk
                    omega

/-- Claim C8: calling Deactivate with activation count 0 triggers the
contract assertion and calling it with a positive count never does;
equivalently, across any call sequence on a fresh handle the assertion fires
if and only if some prefix contains more deactivations than activations. -/
theorem deactivate_assert_iff_overdraw :
    (∀ s : HandleState, s.asserted = false →
      ((Handle.Deactivate s).asserted = true ↔ s.activeCount = 0)) ∧
    (∀ ops : List HandleOp,
      ((runOps ops).asserted = true ↔
        ∃ k, countA (List.take k ops) < countD (List.take k ops))) := by
  constructor
  · intro s hs
    by_cases hc : s.activeCount = 0
    · simp [Handle.Deactivate, hc]
    · simp [Handle.Deactivate, hc, hs]
  · intro ops
    have h := runFrom_asserted_iff ops HandleState.init rfl
    simpa [runOps, HandleState.init] using h

/-- Witness for claim C8: a lone Deactivate on a fresh handle fires the
assertion. -/
theorem deactivate_assert_iff_overdraw_witness :
    (Handle.Deactivate ⟨0, false, []⟩).asserted = true :=
  (deactivate_assert_iff_overdraw.1 ⟨0, false, []⟩ rfl).mpr rfl

/-- Claim C6: view copy assignment from a view of a different handle
deactivates the current handle (decrementing its count and revoking residency
exactly when it reaches 0) and activates the handle of the source view
(incrementing its count and granting residency exactly on the 0-to-1
transition), leaving every other handle untouched; assignment from a view of
the same handle changes no activation count, issues no residency call, and
performs only the GlPtr consistency assertion.  The count of the assignee
must be positive (a live view holds an activation); this covers
TexView::operator= and ImgView::operator= alike. -/
theorem view_assign_residency (counts : Nat → Nat) (dst src : ViewRec) :
    (dst.handleId ≠ src.handleId → 0 < counts dst.handleId →
      (View.assign counts dst src).asserted = false ∧
      (View.assign counts dst src).view = src ∧
      (View.assign counts dst src).counts dst.handleId = counts dst.handleId - 1 ∧
      (View.assign counts dst src).counts src.handleId = counts src.handleId + 1 ∧
      (∀ j, j ≠ dst.handleId → j ≠ src.handleId →
        (View.assign counts dst src).counts j = counts j) ∧
      (View.assign counts dst src).events =
        (if counts dst.handleId - 1 = 0
          then [ViewEvent.makeNonResident dst.handleId] else []) ++
        (if counts src.handleId = 0
          then [ViewEvent.makeResident src.handleId] else [])) ∧
    (dst.handleId = src.handleId →
      (View.assign counts dst src).counts = counts ∧
      (View.assign counts dst src).events = [] ∧
      (View.assign counts dst src).view = dst ∧
      ((View.assign counts dst src).asserted = false ↔ dst.glPtr = src.glPtr)) := by
  constructor
  · intro hne hpos
    have h0 : ¬counts dst.handleId = 0 := by omega
    have hne2 : src.handleId ≠ dst.handleId := Ne.symm hne
    refine ⟨?_, ?_, ?_, ?_, ?_, ?_⟩
    · simp [View.assign, hne, h0]
    · simp [View.assign, hne, h0]
    · simp [View.assign, hne, h0, updFn, hne2]
    · simp [View.assign, hne, h0, updFn, hne2]
    · intro j hj1 hj2
      simp [View.assign, hne, h0, updFn, hj1, hj2]
    · simp only [View.assign, if_neg hne, if_neg h0]
      rw [show updFn counts dst.handleId (counts dst.handleId - 1) src.handleId
            = counts src.handleId by simp [updFn, hne2]]
      by_cases hz : counts src.handleId = 0
      · simp [hz]
      · have h1 : ¬(counts src.handleId + 1 = 1) := by omega
        simp [hz, h1]
  · intro heq
    refine ⟨?_, ?_, ?_, ?_⟩
    · simp [View.assign, heq]
    · simp [View.assign, heq]
    · simp [View.assign, heq]
    · simp only [View.assign, if_pos heq]
      by_cases hg : dst.glPtr = src.glPtr <;> simp [hg]

/-- Witness for claim C6: handle 0 starts at count 1 and handle 1 at count 0;
assigning a view of handle 1 over a view of handle 0 revokes handle 0 and
makes handle 1 resident. -/
theorem view_assign_residency_witness :
    (View.assign (fun j => if j = 0 then 1 else 0) ⟨0, 10⟩ ⟨1, 11⟩).counts 0 = 0 ∧
    (View.assign (fun j => if j = 0 then 1 else 0) ⟨0, 10⟩ ⟨1, 11⟩).counts 1 = 1 ∧
    (View.assign (fun j => if j = 0 then 1 else 0) ⟨0, 10⟩ ⟨1, 11⟩).events =
      [ViewEvent.makeNonResident 0, ViewEvent.makeResident 1] := by
  have h := (view_assign_residency (fun j => if j = 0 then 1 else 0)
      ⟨0, 10⟩ ⟨1, 11⟩).1 (by decide) (by decide)
  obtain ⟨-, -, h1, h2, -, h3⟩ := h
  exact ⟨h1, h2, by simpa using h3⟩

/-! ### Handle caches: helper lemmas -/

/-- Updating the value at a key does not change which keys are present. -/
theorem assocLookup_update_isSome {κ ν : Type} [DecidableEq κ]
    (m : List (κ × ν)) (k kq : κ) (f : ν → ν) :
    (assocLookup (assocUpdate m k f) kq).isSome = (assocLookup m kq).isSome := by
  induction m with
  | nil => rfl
  | cons e rest ih =>
      obtain ⟨k0, v⟩ := e
      by_cases h0 : k0 = k
      · subst h0
        by_cases hq : kq = k0 <;> simp [assocUpdate, assocLookup, hq]
      · by_cases hq : kq = k0 <;> simp [assocUpdate, assocLookup, h0, hq, ih]

/-- Effect of GetViewFull on a cache hit: nothing is minted and the key set
is unchanged (only the activation count of the hit entry moves). -/
theorem getViewFull_found (t : TextureRec) (c : Option Sampler3) (h0 : TexHandleRec)
    (hlk : assocLookup t.texHandles (c.getD t.sampler3D) = some h0) :
    (Texture.GetViewFull t c).sampler3D = t.sampler3D ∧
    (Texture.GetViewFull t c).mintedTexHandles = t.mintedTexHandles ∧
    ∀ k, (assocLookup (Texture.GetViewFull t c).texHandles k).isSome =
      (assocLookup t.texHandles k).isSome := by
  refine ⟨?_, ?_, ?_⟩ <;>
    simp [Texture.GetViewFull, hlk, assocLookup_update_isSome]

/-- Effect of GetViewFull on a cache miss: exactly one handle is minted and
the resolved sampler joins the key set. -/
theorem getViewFull_missing (t : TextureRec) (c : Option Sampler3)
    (hlk : assocLookup t.texHandles (c.getD t.sampler3D) = none) :
    (Texture.GetViewFull t c).sampler3D = t.sampler3D ∧
    (Texture.GetViewFull t c).mintedTexHandles = t.mintedTexHandles + 1 ∧
    ∀ k, (assocLookup (Texture.GetViewFull t c).texHandles k).isSome =
      (if k = c.getD t.sampler3D then true else (assocLookup t.texHandles k).isSome) := by
  refine ⟨?_, ?_, ?_⟩
  · simp [Texture.GetViewFull, hlk]
  · simp [Texture.GetViewFull, hlk]
  · intro k
    by_cases hk : k = c.getD t.sampler3D <;>
      simp [Texture.GetViewFull, hlk, assocLookup_update_isSome, assocLookup, hk]

/-- Invariant run of the sampler-keyed cache: starting from a cache whose key
set is S and whose minted count is the size of S, after any sequence of
GetViewFull calls the minted count is the size of S together with all
resolved sampler configurations. -/
theorem runGetViews_minted (calls : List (Option Sampler3)) :
    ∀ (t : TextureRec) (S : Finset Sampler3) (d : Sampler3),
      t.sampler3D = d →
      (∀ k, (assocLookup t.texHandles k).isSome = true ↔ k ∈ S) →
      t.mintedTexHandles = S.card →
      (runGetViews t calls).mintedTexHandles =
        (S ∪ (calls.map (fun o => o.getD d)).toFinset).card := by
  induction calls with
  | nil =>
      intro t S d _ _ hmint
      simpa [runGetViews] using hmint
  | cons c rest ih =>
      intro t S d hd hkeys hmint
      have hres : c.getD t.sampler3D = c.getD d := by rw [hd]
      show (runGetViews (Texture.GetViewFull t c) rest).mintedTexHandles = _
      cases hlk : assocLookup t.texHandles (c.getD t.sampler3D) with
      | some h0 =>
          have hmem : c.getD d ∈ S := by
            have := (hkeys (c.getD t.sampler3D)).mp (by rw [hlk]; rfl)
            rwa [hres] at this
          obtain ⟨hs1, hs2, hs3⟩ := getViewFull_found t c h0 hlk
          have hrec := ih (Texture.GetViewFull t c) S d
            (by rw [hs1, hd])
            (by intro k; rw [hs3 k]; exact hkeys k)
            (by rw [hs2, hmint])
          rw [hrec]
          congr 1
          rw [List.map_cons, List.toFinset_cons, Finset.union_insert,
              Finset.insert_eq_self.mpr (Finset.mem_union_left _ hmem)]
      | none =>
          have hnot : c.getD d ∉ S := by
            intro hmem
            have := (hkeys (c.getD d)).mpr hmem
            rw [← hres, hlk] at this
            simp at this
          obtain ⟨hs1, hs2, hs3⟩ := getViewFull_missing t c hlk
          have hkeys2 : ∀ k,
              (assocLookup (Texture.GetViewFull t c).texHandles k).isSome = true ↔
                k ∈ insert (c.getD d) S := by
            intro k
            rw [hs3 k]
            by_cases hk : k = c.getD t.sampler3D
            · simp [hk, hres, Finset.mem_insert]
            · have hknot : k ≠ c.getD d := by rw [← hres]; exact hk
              rw [if_neg hk, hkeys k, Finset.mem_insert]
              simp [hknot]
          have hrec := ih (Texture.GetViewFull t c) (insert (c.getD d) S) d
            (by rw [hs1, hd])
            hkeys2
            (by rw [hs2, hmint, Finset.card_insert_of_not_mem hnot])
          rw [hrec]
          congr 1
          rw [List.map_cons, List.toFinset_cons, Finset.union_insert,
              Finset.insert_union]

/-- Claim C2: on a fresh Texture, over any sequence of GetViewFull calls the
number of TexHandles constructed (driver bindless-handle mints) equals the
number of structurally distinct resolved sampler configurations (the explicit
override, or the default sampler when none is given); in particular calls
resolving to one configuration construct exactly one handle. -/
theorem getViewFull_one_handle_per_sampler (s3d : Sampler3)
    (calls : List (Option Sampler3)) :
    (runGetViews (Texture.init s3d) calls).mintedTexHandles =
      ((calls.map (fun o => o.getD s3d)).toFinset).card := by
  have h := runGetViews_minted calls (Texture.init s3d) ∅ s3d rfl
    (by intro k; simp [Texture.init, assocLookup])
    (by simp [Texture.init])
  simpa using h

/-- Effect of the (spec-modelled) image GetViewFull on a cache hit. -/
theorem getViewImg_found (t : ImgCacheRec) (a : ImageAccessModes)
    (l : Option Nat) (mip : Nat) (h0 : ImgHandleRec)
    (hlk : assocLookup t.imgHandles ⟨mip, l, a⟩ = some h0) :
    (Texture.GetViewImg t a l mip).mintedImgHandles = t.mintedImgHandles ∧
    ∀ k, (assocLookup (Texture.GetViewImg t a l mip).imgHandles k).isSome =
      (assocLookup t.imgHandles k).isSome := by
  refine ⟨?_, ?_⟩ <;>
    simp [Texture.GetViewImg, hlk, assocLookup_update_isSome]

/-- Effect of the (spec-modelled) image GetViewFull on a cache miss. -/
theorem getViewImg_missing (t : ImgCacheRec) (a : ImageAccessModes)
    (l : Option Nat) (mip : Nat)
    (hlk : assocLookup t.imgHandles ⟨mip, l, a⟩ = none) :
    (Texture.GetViewImg t a l mip).mintedImgHandles = t.mintedImgHandles + 1 ∧
    ∀ k, (assocLookup (Texture.GetViewImg t a l mip).imgHandles k).isSome =
      (if k = (⟨mip, l, a⟩ : ImgHandleData) then true
        else (assocLookup t.imgHandles k).isSome) := by
  refine ⟨?_, ?_⟩
  · simp [Texture.GetViewImg, hlk]
  · intro k
    by_cases hk : k = (⟨mip, l, a⟩ : ImgHandleData) <;>
      simp [Texture.GetViewImg, hlk, assocLookup_update_isSome, assocLookup, hk]

/-- Invariant run of the triple-keyed image cache: the minted count always
equals the number of distinct keys ever requested. -/
theorem runGetImgViews_minted (calls : List (ImageAccessModes × Option Nat × Nat)) :
    ∀ (t : ImgCacheRec) (S : Finset ImgHandleData),
      (∀ k, (assocLookup t.imgHandles k).isSome = true ↔ k ∈ S) →
      t.mintedImgHandles = S.card →
      (runGetImgViews t calls).mintedImgHandles =
        (S ∪ (calls.map imgKeyOf).toFinset).card := by
  induction calls with
  | nil =>
      intro t S _ hmint
      simpa [runGetImgViews] using hmint
  | cons c rest ih =>
      intro t S hkeys hmint
      show (runGetImgViews (Texture.GetViewImg t c.1 c.2.1 c.2.2) rest).mintedImgHandles = _
      cases hlk : assocLookup t.imgHandles ⟨c.2.2, c.2.1, c.1⟩ with
      | some h0 =>
          have hmem : imgKeyOf c ∈ S :=
            (hkeys (imgKeyOf c)).mp (by rw [show imgKeyOf c = ⟨c.2.2, c.2.1, c.1⟩ from rfl, hlk]; rfl)
          obtain ⟨hs2, hs3⟩ := getViewImg_found t c.1 c.2.1 c.2.2 h0 hlk
          have hrec := ih (Texture.GetViewImg t c.1 c.2.1 c.2.2) S
            (by intro k; rw [hs3 k]; exact hkeys k)
            (by rw [hs2, hmint])
          rw [hrec]
          congr 1
          rw [List.map_cons, List.toFinset_cons, Finset.union_insert,
              Finset.insert_eq_self.mpr (Finset.mem_union_left _ hmem)]
      | none =>
          have hnot : imgKeyOf c ∉ S := by
            intro hmem
            have := (hkeys (imgKeyOf c)).mpr hmem
            rw [show imgKeyOf c = ⟨c.2.2, c.2.1, c.1⟩ from rfl, hlk] at this
            simp at this
          obtain ⟨hs2, hs3⟩ := getViewImg_missing t c.1 c.2.1 c.2.2 hlk
          have hkeys2 : ∀ k,
              (assocLookup (Texture.GetViewImg t c.1 c.2.1 c.2.2).imgHandles k).isSome = true ↔
                k ∈ insert (imgKeyOf c) S := by
            intro k
            rw [hs3 k]
            by_cases hk : k = (⟨c.2.2, c.2.1, c.1⟩ : ImgHandleData)
            · simp [hk, Finset.mem_insert, imgKeyOf]
            · have hknot : k ≠ imgKeyOf c := hk
              rw [if_neg hk, hkeys k, Finset.mem_insert]
              simp [hknot]
          have hrec := ih (Texture.GetViewImg t c.1 c.2.1 c.2.2) (insert (imgKeyOf c) S)
            hkeys2
            (by rw [hs2, hmint, Finset.card_insert_of_not_mem hnot])
          rw [hrec]
          congr 1
          rw [List.map_cons, List.toFinset_cons, Finset.union_insert,
              Finset.insert_union]

/-- Claim C1: with the image-handle cache keyed, as the spec prescribes, by
the triple (mip level, optional layer, access mode), any sequence of
image-view requests on a fresh Texture mints exactly one ImgHandle per
distinct triple: same-triple calls reuse one cached handle, distinct triples
create distinct handles.  The definition settled against is modelled from
the spec because the source at Texture.cpp:220-230 does not compile. -/
theorem getViewImg_one_handle_per_triple
    (calls : List (ImageAccessModes × Option Nat × Nat)) :
    (runGetImgViews ImgCache.init calls).mintedImgHandles =
      ((calls.map imgKeyOf).toFinset).card := by
  have h := runGetImgViews_minted calls ImgCache.init ∅
    (by intro k; simp [ImgCache.init, assocLookup])
    (by simp [ImgCache.init])
  simpa using h

/-! ### Physics catch-up loop: counting bounds -/

/-- Lower bound: with accumulated time above n steps, the loop makes at least
n OnPhysics calls. -/
theorem physicsLoop_count_ge (step : ℚ) (hstep : 0 < step) :
    ∀ (n : Nat) (t : ℚ), (n : ℚ) * step < t → n ≤ (physicsLoop step t).2 := by
  intro n
  induction n with
  | zero => intro t _; exact Nat.zero_le _
  | succ m ih =>
      intro t ht
      push_cast at ht
      have hm : (0 : ℚ) ≤ (m : ℚ) := Nat.cast_nonneg m
      have hlt : step < t := by nlinarith
      rw [physicsLoop, dif_pos ⟨hstep, hlt⟩]
      show m + 1 ≤ (physicsLoop step (t - step)).2 + 1
      have ht2 : (m : ℚ) * step < t - step := by nlinarith
      exact Nat.succ_le_succ (ih (t - step) ht2)

/-- Upper bound: with accumulated time at most n + 1 steps, the loop makes at
most n OnPhysics calls (the loop guard is a strict comparison). -/
theorem physicsLoop_count_le (step : ℚ) (hstep : 0 < step) :
    ∀ (n : Nat) (t : ℚ), t ≤ ((n : ℚ) + 1) * step → (physicsLoop step t).2 ≤ n := by
  intro n
  induction n with
  | zero =>
      intro t ht
      rw [physicsLoop, dif_neg]
      rintro ⟨-, h2⟩
      have : t ≤ step := by simpa using ht
      linarith
  | succ m ih =>
      intro t ht
      push_cast at ht
      by_cases hlt : step < t
      · rw [physicsLoop, dif_pos ⟨hstep, hlt⟩]
        show (physicsLoop step (t - step)).2 + 1 ≤ m + 1
        have ht2 : t - step ≤ ((m : ℚ) + 1) * step := by nlinarith
        exact Nat.succ_le_succ (ih (t - step) ht2)
      · rw [physicsLoop, dif_neg]
        · exact Nat.zero_le _
        · rintro ⟨-, h2⟩
          exact hlt h2

/-- Claim C10 is false as stated: the frame delta 21/100 is greater than
MaxPhysicsStepsPerFrame * PhysicsTimeStep = 1/5, yet that frame makes
exactly MaxPhysicsStepsPerFrame = 10 OnPhysics calls, which does not exceed
the limit (the loop guard being strict, exceeding the limit needs a delta
above (MaxPhysicsStepsPerFrame + 1) * PhysicsTimeStep). -/
theorem physics_overrun_delta_bound_fails :
    (MaxPhysicsStepsPerFrame : ℚ) * PhysicsTimeStep < 21 / 100 ∧
    (physicsLoop PhysicsTimeStep (21 / 100)).2 = MaxPhysicsStepsPerFrame := by
  constructor
  · norm_num [MaxPhysicsStepsPerFrame, PhysicsTimeStep]
  · have hstep : (0 : ℚ) < PhysicsTimeStep := by norm_num [PhysicsTimeStep]
    have hle := physicsLoop_count_le PhysicsTimeStep hstep 10 (21 / 100)
      (by norm_num [PhysicsTimeStep])
    have hge := physicsLoop_count_ge PhysicsTimeStep hstep 10 (21 / 100)
      (by norm_num [PhysicsTimeStep])
    rw [show MaxPhysicsStepsPerFrame = 10 from rfl]
    omega

/-- Claim C10 (amended): the physics loop in App::Run never consults
MaxPhysicsStepsPerFrame, so the number of OnPhysics calls in one frame is
unbounded: any frame delta greater than
(MaxPhysicsStepsPerFrame + 1) * PhysicsTimeStep makes the number of
OnPhysics calls in that single frame exceed MaxPhysicsStepsPerFrame. -/
theorem physics_steps_unbounded (t : ℚ)
    (h : ((MaxPhysicsStepsPerFrame : ℚ) + 1) * PhysicsTimeStep < t) :
    MaxPhysicsStepsPerFrame < (physicsLoop PhysicsTimeStep t).2 := by
  have hstep : (0 : ℚ) < PhysicsTimeStep := by norm_num [PhysicsTimeStep]
  have hge := physicsLoop_count_ge PhysicsTimeStep hstep
    (MaxPhysicsStepsPerFrame + 1) t (by push_cast; exact h)
  omega

/-- Witness for claim C10 (amended): a frame delta of one second (49 full
steps of 1/50) makes more than 10 OnPhysics calls. -/
theorem physics_steps_unbounded_witness :
    ((MaxPhysicsStepsPerFrame : ℚ) + 1) * PhysicsTimeStep < 1 ∧
    MaxPhysicsStepsPerFrame < (physicsLoop PhysicsTimeStep 1).2 :=
  ⟨by norm_num [MaxPhysicsStepsPerFrame, PhysicsTimeStep],
   physics_steps_unbounded 1 (by norm_num [MaxPhysicsStepsPerFrame, PhysicsTimeStep])⟩

end BPlus
